import Mathlib

/-!
# Verification of the git smart-HTTP clone pipeline

Shallow embedding of the wire-protocol and packfile code of the repository
(package `commands`): the pkt-line codec (`MakePktLine`, `ParsePktLine`,
`ReadPktLines`), the side-band demultiplexer (`unwrapSideBand`), reference
discovery and negotiation (`DiscoverReferences` line loop,
`NegotiateWithServer`), and the packfile parser (`parseObjectHeader`,
`parseDeltaHeaderSize`, `ParsePackfile`).

Bytes are modelled as `Nat` (each in `0..255` on real inputs), byte strings as
`List Nat`. Go runtime panics (out-of-range slice expressions) are modelled
explicitly by the `GoResult.panics` constructor, since several claims are
about whether the decoder can crash. zlib decompression is abstracted by an
`Inflate` parameter: given the remaining input it returns the decompressed
bytes together with the number of input bytes consumed, or `none` when the
stream is invalid; the packfile theorems are stated either for all such
functions or for an explicitly given concrete one.
-/

/-- Result of running a Go function that can return a value, return an error,
or crash with a runtime panic. -/
inductive GoResult (α : Type) : Type
  | ok (a : α) : GoResult α
  | err (msg : String) : GoResult α
  | panics : GoResult α
deriving DecidableEq

/-- Value of one ASCII hex digit, as accepted by `strconv.ParseInt(s, 16, 32)`
for the digit characters. -/
def hexVal (b : Nat) : Option Nat :=
  if 48 ≤ b ∧ b ≤ 57 then some (b - 48)
  else if 97 ≤ b ∧ b ≤ 102 then some (b - 87)
  else if 65 ≤ b ∧ b ≤ 70 then some (b - 55)
  else none

/-- Accumulating hex parse of a digit string, the digit loop of
`strconv.ParseInt(s, 16, 32)` on a sign-free string. -/
def parseHexGo (acc : Nat) : List Nat → Option Nat
  | [] => some acc
  | b :: bs =>
    match hexVal b with
    | none => none
    | some v => parseHexGo (acc * 16 + v) bs

/-- Parse the 4-byte pkt-line length header, `strconv.ParseInt(lengthStr, 16, 32)`
applied to the 4-character header string. -/
def parseHex4 (l : List Nat) : Option Nat :=
  parseHexGo 0 l

/-- Lower-case hex digit character (byte value) for a nibble, as printed by
Go's `%x` verbs. -/
def hexDigitChar (n : Nat) : Nat :=
  if n < 10 then 48 + n else 87 + n

/-- Hex digits, least significant first, with explicit fuel (structural
recursion so that the kernel can evaluate it; `fuel ≥ n` is always enough
since the argument at least halves each step). -/
def toHexRevF : Nat → Nat → List Nat
  | 0, _ => []
  | fuel + 1, n => if n = 0 then [] else hexDigitChar (n % 16) :: toHexRevF fuel (n / 16)

/-- Hex digits of `n`, least significant first (empty for `0`). -/
def toHexRev (n : Nat) : List Nat :=
  toHexRevF n n

/-- Go's `fmt.Sprintf("%04x", n)`: minimal lower-case hex digits of `n`,
zero-padded on the left to at least four characters. -/
def sprintf04x (n : Nat) : List Nat :=
  let ds := (toHexRev n).reverse
  List.replicate (4 - ds.length) 48 ++ ds

/-- ASCII whitespace test used by `strings.TrimSpace` (the ASCII fast path:
space, tab, newline, vertical tab, form feed, carriage return). -/
def isSpaceByte (b : Nat) : Bool :=
  b == 32 || b == 9 || b == 10 || b == 11 || b == 12 || b == 13

/-- `strings.TrimSpace`: drop leading and trailing whitespace. -/
def trimSpace (l : List Nat) : List Nat :=
  ((l.dropWhile isSpaceByte).reverse.dropWhile isSpaceByte).reverse

/-- `ParsePktLine` (part_000, lines 116-140): parse one pkt-line from a byte
buffer, returning the frame kind (`"flush"` or `"data"`) and the payload.
The Go code slices `data[4:length]` without checking `length <= len(data)`,
which panics when the check fails; that case is `GoResult.panics`. -/
def ParsePktLine (data : List Nat) : GoResult (String × List Nat) :=
  if data.length < 4 then .err ("invalid pkt-line: too short")
  else
    match parseHex4 (data.take 4) with
    | none => .err ("invalid pkt-line length (not hex)")
    | some length =>
      if length = 0 then .ok ("flush", [])
      else if length < 4 then .err ("invalid pkt-line length")
      else if length ≤ data.length then .ok ("data", (data.take length).drop 4)
      else .panics

/-- `MakePktLine` (part_000, lines 195-203): `"0000"` for the empty payload,
otherwise the 4-hex-digit length `len(data)+4` followed by the payload. -/
def MakePktLine (data : List Nat) : List Nat :=
  if data = [] then [48, 48, 48, 48]
  else sprintf04x (data.length + 4) ++ data

/-- Inner loop of `ReadPktLines` (part_000, lines 158-184): consume pkt-lines
from one read buffer, appending trimmed payloads to `lines`; leftover bytes
that do not complete a frame are dropped when the loop breaks. The slice
`data[4:length]` panics when `length < 4` (and `length ≥ 1..3` passes the
earlier guards), modelled by `GoResult.panics`. Fuel bounds the iteration;
every step consumes at least one byte, so `data.length + 1` fuel suffices. -/
def readChunkLoop : Nat → List Nat → List (List Nat) → GoResult (List (List Nat))
  | 0, _, lines => .ok lines
  | fuel + 1, data, lines =>
    if data.length < 4 then .ok lines
    else
      match parseHex4 (data.take 4) with
      | none => .err ("invalid pkt-line length")
      | some length =>
        if length = 0 then readChunkLoop fuel (data.drop 4) (lines ++ [[]])
        else if data.length < length then .ok lines
        else if length < 4 then .panics
        else readChunkLoop fuel (data.drop length)
          (lines ++ [trimSpace ((data.take length).drop 4)])

/-- Outer loop of `ReadPktLines` (part_000, lines 143-192): each element of
`reads` is the byte chunk returned by one `resp.Body.Read` call; a zero-length
read ends the loop, and the stream ends when `reads` is exhausted. -/
def readPktLinesGo : List (List Nat) → List (List Nat) → GoResult (List (List Nat))
  | [], lines => .ok lines
  | chunk :: rest, lines =>
    if chunk.length = 0 then .ok lines
    else
      match readChunkLoop (chunk.length + 1) chunk lines with
      | .ok lines2 => readPktLinesGo rest lines2
      | .err e => .err e
      | .panics => .panics

/-- `ReadPktLines` on a response body delivered as the given sequence of
reads. -/
def ReadPktLines (reads : List (List Nat)) : GoResult (List (List Nat)) :=
  readPktLinesGo reads []

/-- Loop of `unwrapSideBand` (part_000, lines 552-601): consume pkt-lines,
appending channel-1 payloads to `result`; channel 2 and channel 3 frames are
skipped. Fuel bounds the iteration; each step consumes at least one byte. -/
def unwrapGo : Nat → List Nat → List Nat → Except String (List Nat)
  | 0, _, result => .ok result
  | fuel + 1, data, result =>
    if data.length < 4 then .ok result
    else
      match parseHex4 (data.take 4) with
      | none => .error ("invalid pkt-line header")
      | some length =>
        if length = 0 then unwrapGo fuel (data.drop 4) result
        else if data.length < length then .error ("incomplete pkt-line")
        else if 5 ≤ length then
          if data.getD 4 0 = 1 then
            unwrapGo fuel (data.drop length) (result ++ (data.take length).drop 5)
          else unwrapGo fuel (data.drop length) result
        else unwrapGo fuel (data.drop length) result

/-- `unwrapSideBand` (part_000, lines 552-601) on a fully-buffered response
body. -/
def unwrapSideBand (data : List Nat) : Except String (List Nat) :=
  unwrapGo (data.length + 1) data []

/-- Split a byte string at the first occurrence of `sep`:
`strings.SplitN(line, sep, 2)` returns two parts exactly when `sep` occurs. -/
def splitAtFirst (sep : Nat) : List Nat → Option (List Nat × List Nat)
  | [] => none
  | b :: rest =>
    if b = sep then some ([], rest)
    else
      match splitAtFirst sep rest with
      | none => none
      | some (l, r) => some (b :: l, r)

/-- A Go `map[string]string` keyed by byte strings, as an association list in
insertion order. -/
abbrev RefMap := List (List Nat × List Nat)

/-- Go map assignment `m[k] = v`: replace the binding when the key is present,
otherwise append it. -/
def mapUpsert : RefMap → List Nat → List Nat → RefMap
  | [], k, v => [(k, v)]
  | (k', v') :: rest, k, v =>
    if k' = k then (k, v) :: rest else (k', v') :: mapUpsert rest k v

/-- Go map lookup `m[k]`. -/
def lookupRef : RefMap → List Nat → Option (List Nat)
  | [], _ => none
  | (k', v) :: rest, k => if k' = k then some v else lookupRef rest k

/-- Reference-parsing loop of `DiscoverReferences` (part_000, lines 241-257):
skip empty lines and lines starting with `#`; split each remaining line at the
first space into hash and ref name; trim the name and store `name ↦ hash`.
The HTTP transport around it is not modelled. -/
def parseReferenceLinesGo : List (List Nat) → RefMap → RefMap
  | [], refs => refs
  | line :: rest, refs =>
    if line = [] ∨ line.head? = some 35 then parseReferenceLinesGo rest refs
    else
      match splitAtFirst 32 line with
      | none => parseReferenceLinesGo rest refs
      | some (sha, r) => parseReferenceLinesGo rest (mapUpsert refs (trimSpace r) sha)

/-- The reference map built by `DiscoverReferences` from the decoded pkt-line
payloads. -/
def parseReferenceLines (lines : List (List Nat)) : RefMap :=
  parseReferenceLinesGo lines []

/-- Byte string of an ASCII Lean string literal. -/
def strBytes (s : String) : List Nat :=
  s.data.map (fun c => c.toNat)

/-- `NegotiateWithServer` (part_000, lines 261-276): prefer the `HEAD` entry,
then `refs/heads/main`, then `refs/heads/master`, else fail. The unused
`repoURL` parameter is omitted. -/
def NegotiateWithServer (references : RefMap) : Except String (List Nat) :=
  match lookupRef references (strBytes "HEAD") with
  | some headRef => .ok headRef
  | none =>
    match lookupRef references (strBytes "refs/heads/main") with
    | some mainRef => .ok mainRef
    | none =>
      match lookupRef references (strBytes "refs/heads/master") with
      | some masterRef => .ok masterRef
      | none => .error ("no suitable reference found")

/-- Packfile object type tags (part_000, lines 279-286). -/
def OBJ_COMMIT : Nat := 1

/-- Tree pack object tag. -/
def OBJ_TREE : Nat := 2

/-- Blob pack object tag. -/
def OBJ_BLOB : Nat := 3

/-- Tag pack object tag. -/
def OBJ_TAG : Nat := 4

/-- Ofs-delta pack object tag. -/
def OBJ_OFS_DELTA : Nat := 6

/-- Ref-delta pack object tag. -/
def OBJ_REF_DELTA : Nat := 7

/-- `GitObjectType` (part_000, lines 16-23) is a string tag. -/
abbrev GitObjectType := String

/-- The `blob` object type constant. -/
def BlobObject : GitObjectType := "blob"

/-- The `tree` object type constant. -/
def TreeObject : GitObjectType := "tree"

/-- The `commit` object type constant. -/
def CommitObject : GitObjectType := "commit"

/-- Size loop of `parseObjectHeader` (part_000, lines 471-483): consume
continuation bytes, each contributing 7 size bits at the current shift,
stopping after the first byte with a clear continuation bit or at the end of
the buffer. Returns the final size and the number of bytes consumed. -/
def parseSizeLoop : List Nat → Nat → Nat → Nat × Nat
  | [], _, size => (size, 0)
  | b :: rest, shift, size =>
    let size2 := size ||| ((b &&& 127) <<< shift)
    if b &&& 128 = 0 then (size2, 1)
    else
      let r := parseSizeLoop rest (shift + 7) size2
      (r.1, r.2 + 1)

/-- `parseObjectHeader` (part_000, lines 455-486): decode the variable-length
pack object header, returning `(type, size, bytesConsumed)`; `(0, 0, 0)` on an
empty buffer. -/
def parseObjectHeader (data : List Nat) : Nat × Nat × Nat :=
  match data with
  | [] => (0, 0, 0)
  | firstByte :: rest =>
    let objType := (firstByte >>> 4) &&& 7
    let size := firstByte &&& 15
    if firstByte &&& 128 = 0 then (objType, size, 1)
    else
      let r := parseSizeLoop rest 4 size
      (objType, r.1, 1 + r.2)

/-- One varint-shaped skip of `parseDeltaHeaderSize`: advance past bytes with
the continuation bit set, then one more when available. -/
def skipVarint (data : List Nat) : Nat :=
  let leading := (data.takeWhile (fun b => decide (b &&& 128 ≠ 0))).length
  if leading < data.length then leading + 1 else leading

/-- `parseDeltaHeaderSize` (part_000, lines 432-452): skip two varint-shaped
byte groups and return the number of bytes skipped. -/
def parseDeltaHeaderSize (data : List Nat) : Nat :=
  let first := skipVarint data
  first + skipVarint (data.drop first)

/-- Abstraction of zlib decompression of a stream at the head of the input:
the decompressed bytes and the number of input bytes consumed (as the Go code
computes via `reader.Size() - reader.Len()`), or `none` when
`zlib.NewReader`/`io.ReadAll` fails. -/
abbrev Inflate := List Nat → Option (List Nat × Nat)

/-- Big-endian 32-bit read at byte offset `k` (part_000, lines 300, 306). -/
def be32 (data : List Nat) (k : Nat) : Nat :=
  (data.getD k 0) <<< 24 ||| (data.getD (k + 1) 0) <<< 16 |||
    (data.getD (k + 2) 0) <<< 8 ||| data.getD (k + 3) 0

/-- Outcome of one iteration of the `ParsePackfile` object loop: either the
function returns (with the objects persisted so far and an optional error), or
the loop continues at a new offset. -/
inductive StepOut : Type
  | halt (acc : List (GitObjectType × List Nat)) (e : Option String) : StepOut
  | next (offset : Nat) (acc : List (GitObjectType × List Nat)) : StepOut
deriving DecidableEq

/-- Bottom-of-loop check of `ParsePackfile` (part_000, lines 420-425): when
the buffer is exhausted, fail unless this was the last object, else break with
success; otherwise continue with the next object. -/
def stepFinish (data : List Nat) (objectCount i offset : Nat)
    (acc : List (GitObjectType × List Nat)) : StepOut :=
  if data.length ≤ offset then
    if i < objectCount - 1 then .halt acc (some ("unexpected end of packfile after object"))
    else .halt acc none
  else .next offset acc

/-- Body of the `ParsePackfile` object loop (part_000, lines 318-426) for
object index `i` at byte `offset`: decode the object header; for
Commit/Tree/Blob decompress and persist; for Tag fail (the inner type switch
has no Tag case); for Ofs/Ref-delta skip bytes without persisting anything;
then apply the end-of-buffer check at the bottom of the loop. -/
def packStepBody (inflate : Inflate) (data : List Nat) (objectCount i offset : Nat)
    (acc : List (GitObjectType × List Nat)) : StepOut :=
  if data.length ≤ offset then .halt acc (some ("unexpected end of packfile at object"))
  else
    let hdr := parseObjectHeader (data.drop offset)
    let objType := hdr.1
    let headerSize := hdr.2.2
    if headerSize = 0 then .halt acc (some ("invalid object header"))
    else
      let offset1 := offset + headerSize
      if data.length ≤ offset1 then
        .halt acc (some ("unexpected end of packfile after header"))
      else if objType = OBJ_COMMIT ∨ objType = OBJ_TREE ∨ objType = OBJ_BLOB ∨
          objType = OBJ_TAG then
        match inflate (data.drop offset1) with
        | none => .halt acc (some ("error reading zlib data"))
        | some (content, consumed) =>
          if objType = OBJ_COMMIT then
            stepFinish data objectCount i (offset1 + consumed)
              (acc ++ [(CommitObject, content)])
          else if objType = OBJ_TREE then
            stepFinish data objectCount i (offset1 + consumed)
              (acc ++ [(TreeObject, content)])
          else if objType = OBJ_BLOB then
            stepFinish data objectCount i (offset1 + consumed)
              (acc ++ [(BlobObject, content)])
          else .halt acc (some ("unsupported object type"))
      else if objType = OBJ_OFS_DELTA ∨ objType = OBJ_REF_DELTA then
        let offset2 := offset1 + parseDeltaHeaderSize (data.drop offset1)
        if offset2 < data.length then
          match inflate (data.drop offset2) with
          | none =>
            if offset2 + 50 < data.length then stepFinish data objectCount i (offset2 + 50) acc
            else stepFinish data objectCount i data.length acc
          | some (_, consumed) => stepFinish data objectCount i (offset2 + consumed) acc
        else stepFinish data objectCount i offset2 acc
      else .halt acc (some ("unknown object type"))

/-- The `ParsePackfile` object loop, driven by fuel `objectCount - i`. -/
def packLoop (inflate : Inflate) (data : List Nat) (objectCount : Nat) :
    Nat → Nat → Nat → List (GitObjectType × List Nat) →
    List (GitObjectType × List Nat) × Option String
  | 0, _, _, acc => (acc, none)
  | fuel + 1, i, offset, acc =>
    match packStepBody inflate data objectCount i offset acc with
    | .halt a e => (a, e)
    | .next off a => packLoop inflate data objectCount fuel (i + 1) off a

/-- `ParsePackfile` (part_000, lines 289-429): validate the `PACK` header,
version and object count, then run the object loop. Returns the list of
persisted `(type, content)` pairs (the observable effect of each
`WriteGitObject` call) together with the error, if any. -/
def ParsePackfile (inflate : Inflate) (data : List Nat) :
    List (GitObjectType × List Nat) × Option String :=
  if data.length < 12 then ([], some ("packfile too short"))
  else if data.take 4 ≠ [80, 65, 67, 75] then ([], some ("invalid packfile header"))
  else if be32 data 4 ≠ 2 then ([], some ("unsupported packfile version"))
  else
    let objectCount := be32 data 8
    if objectCount = 0 then ([], none)
    else packLoop inflate data objectCount objectCount 0 12 []

/-- A concrete `Inflate` used for the synthetic packfiles below: the stream
beginning `250, 1, 2` is 3 compressed bytes inflating to `"abcd"`; everything
else is an invalid stream. -/
def concreteInflate : Inflate :=
  fun input =>
    if input.take 3 = [250, 1, 2] then some ([97, 98, 99, 100], 3) else none

/-- Synthetic packfile from the spec's test list: one base Blob whose stream
inflates to `"abcd"`, then one RefDelta entry (type 7) followed by a 20-byte
base hash and a compressed delta stream. -/
def refDeltaPack : List Nat :=
  [80, 65, 67, 75, 0, 0, 0, 2, 0, 0, 0, 2, 52, 250, 1, 2, 119,
   1, 2, 3, 4, 5, 6, 7, 8, 9, 10, 11, 12, 13, 14, 15, 16, 17, 18, 19, 20, 251, 5]

/-- Packfile with a single Blob entry whose header declares size 5 while its
stream inflates to the 4 bytes `"abcd"`. -/
def mismatchPack : List Nat :=
  [80, 65, 67, 75, 0, 0, 0, 2, 0, 0, 0, 1, 53, 250, 1, 2]

/-- Single-Blob packfile whose header byte declares inflated size `d`. -/
def blobPackWithSize (d : Nat) : List Nat :=
  [80, 65, 67, 75, 0, 0, 0, 2, 0, 0, 0, 1, 48 + d, 250, 1, 2]

/-- Side-band stream: a channel-1 frame `"AB"`, then a channel-3 frame
`"ERR"`, then a channel-1 frame `"CD"`. -/
def sideBandErrData : List Nat :=
  [48, 48, 48, 55, 1, 65, 66, 48, 48, 48, 56, 3, 69, 82, 82, 48, 48, 48, 55, 1, 67, 68]

/-- Helper lemmas. `parseHexGo` distributes over append. -/
theorem parseHexGo_append (l1 l2 : List Nat) : ∀ acc,
    parseHexGo acc (l1 ++ l2) = (parseHexGo acc l1).bind (fun a => parseHexGo a l2) := by
  induction l1 with
  | nil => intro acc; simp [parseHexGo]
  | cons b bs ih =>
    intro acc
    simp only [List.cons_append, parseHexGo]
    cases hexVal b with
    | none => simp
    | some v => simp [ih]

/-- Hex formatting and parsing of one digit are inverse. -/
theorem hexVal_hexDigitChar : ∀ m, m < 16 → hexVal (hexDigitChar m) = some m := by decide

/-- `toHexRevF` of zero is empty at any fuel. -/
theorem toHexRevF_zero (fuel : Nat) : toHexRevF fuel 0 = [] := by
  cases fuel <;> simp [toHexRevF]

/-- The fuel of `toHexRevF` is irrelevant once it is at least the argument. -/
theorem toHexRevF_congr : ∀ fuel1 fuel2 n, n ≤ fuel1 → n ≤ fuel2 →
    toHexRevF fuel1 n = toHexRevF fuel2 n := by
  intro fuel1
  induction fuel1 with
  | zero =>
    intro fuel2 n h1 _
    have : n = 0 := by omega
    subst this
    rw [toHexRevF_zero, toHexRevF_zero]
  | succ f ih =>
    intro fuel2 n h1 h2
    by_cases hn : n = 0
    · subst hn; rw [toHexRevF_zero, toHexRevF_zero]
    · cases fuel2 with
      | zero => omega
      | succ g =>
        simp only [toHexRevF, hn, if_false]
        have hlt : n / 16 < n := Nat.div_lt_self (by omega) (by omega)
        rw [ih g (n / 16) (by omega) (by omega)]

/-- Unfolding equation of `toHexRev`. -/
theorem toHexRev_eq (n : Nat) :
    toHexRev n = if n = 0 then [] else hexDigitChar (n % 16) :: toHexRev (n / 16) := by
  by_cases hn : n = 0
  · simp [hn, toHexRev, toHexRevF_zero]
  · cases n with
    | zero => omega
    | succ m =>
      simp only [hn, if_false, toHexRev]
      simp only [toHexRevF, hn, if_false, Nat.succ_eq_add_one]
      have hlt : (m + 1) / 16 < m + 1 := Nat.div_lt_self (by omega) (by omega)
      rw [toHexRevF_congr m ((m + 1) / 16) ((m + 1) / 16) (by omega) (by omega)]

/-- Parsing the reversed hex digits of `n` recovers `n`, generalized over the
accumulator. -/
theorem parseHexGo_toHexRev (n : Nat) : ∀ acc,
    parseHexGo acc (toHexRev n).reverse =
      some (acc * 16 ^ (toHexRev n).length + n) := by
  induction n using Nat.strong_induction_on with
  | _ n ih =>
    intro acc
    rw [toHexRev_eq]
    by_cases hn : n = 0
    · simp [hn, parseHexGo]
    · simp only [hn, if_false, List.reverse_cons, List.length_cons]
      rw [parseHexGo_append]
      have hlt : n / 16 < n := Nat.div_lt_self (by omega) (by omega)
      rw [ih (n / 16) hlt acc]
      simp only [parseHexGo, hexVal_hexDigitChar (n % 16) (by omega), Option.some_bind]
      have key : (acc * 16 ^ (toHexRev (n / 16)).length + n / 16) * 16 + n % 16 =
          acc * 16 ^ ((toHexRev (n / 16)).length + 1) + (16 * (n / 16) + n % 16) := by
        rw [pow_succ]; ring
      rw [key, Nat.div_add_mod]

/-- `toHexRev n` has at most `d` digits when `n < 16 ^ d`. -/
theorem toHexRev_length_le : ∀ d n, n < 16 ^ d → (toHexRev n).length ≤ d := by
  intro d
  induction d with
  | zero =>
    intro n h
    have : n = 0 := by simpa using h
    subst this
    simp [toHexRev, toHexRevF_zero]
  | succ k ih =>
    intro n h
    rw [toHexRev_eq]
    by_cases hn : n = 0
    · simp [hn]
    · simp only [hn, if_false, List.length_cons]
      have hdiv : n / 16 < 16 ^ k := by
        rw [Nat.div_lt_iff_lt_mul (by omega : 0 < 16)]
        calc n < 16 ^ (k + 1) := h
        _ = 16 ^ k * 16 := by rw [pow_succ]
      have := ih (n / 16) hdiv
      omega

/-- Leading zero hex digits do not change the parsed value at accumulator 0. -/
theorem parseHexGo_replicate_zero (l : List Nat) : ∀ m,
    parseHexGo 0 (List.replicate m 48 ++ l) = parseHexGo 0 l := by
  intro m
  induction m with
  | zero => simp
  | succ k ih =>
    have h48 : hexVal 48 = some 0 := by decide
    simp only [List.replicate_succ, List.cons_append, parseHexGo, h48]
    simpa using ih

/-- `strconv.ParseInt(_, 16, 32)` inverts `fmt.Sprintf("%04x", _)` below
`0x10000`. -/
theorem parseHex4_sprintf04x (n : Nat) :
    parseHex4 (sprintf04x n) = some n := by
  simp only [parseHex4, sprintf04x]
  rw [parseHexGo_replicate_zero]
  rw [parseHexGo_toHexRev n 0]
  simp

/-- `%04x` yields exactly four characters below `0x10000`. -/
theorem sprintf04x_length (n : Nat) (h : n < 65536) : (sprintf04x n).length = 4 := by
  have hk : (toHexRev n).length ≤ 4 :=
    toHexRev_length_le 4 n (lt_of_lt_of_le h (by norm_num))
  simp only [sprintf04x, List.length_append, List.length_replicate, List.length_reverse]
  omega

/-- C7: for every payload `p` of 0 to 65516 bytes, decoding the encoding of
`p` yields exactly one frame: `Data(p)` when `p` is non-empty and `Flush` when
`p` is empty; the encoding of the empty payload is the literal `"0000"`, and
otherwise a 4-hex-digit lowercase length equal to `len(p)+4` followed by
`p`. -/
theorem pktline_roundtrip (p : List Nat) (hlen : p.length ≤ 65516) :
    (p = [] → MakePktLine p = [48, 48, 48, 48] ∧
      ParsePktLine (MakePktLine p) = .ok ("flush", [])) ∧
    (p ≠ [] → MakePktLine p = sprintf04x (p.length + 4) ++ p ∧
      (sprintf04x (p.length + 4)).length = 4 ∧
      ParsePktLine (MakePktLine p) = .ok ("data", p)) := by
  constructor
  · intro hp
    subst hp
    exact ⟨rfl, by decide⟩
  · intro hp
    have hn : p.length + 4 < 65536 := by omega
    have hsp := sprintf04x_length (p.length + 4) hn
    have hparse := parseHex4_sprintf04x (p.length + 4)
    have hmk : MakePktLine p = sprintf04x (p.length + 4) ++ p := by
      simp [MakePktLine, hp]
    refine ⟨hmk, hsp, ?_⟩
    rw [hmk]
    obtain ⟨s, hsdef, hslen⟩ : ∃ s, sprintf04x (p.length + 4) = s ∧ s.length = 4 :=
      ⟨_, rfl, hsp⟩
    rw [hsdef]
    have hdl : (s ++ p).length = p.length + 4 := by
      simp [hslen]; omega
    have htk : (s ++ p).take 4 = s := by
      conv_lhs => rw [← hslen]
      exact List.take_left _ _
    have hdr : (s ++ p).drop 4 = p := by
      conv_lhs => rw [← hslen]
      exact List.drop_left _ _
    have htkall : (s ++ p).take (p.length + 4) = s ++ p := by
      conv_lhs => rw [← hdl]
      exact List.take_length _
    have hparse2 : parseHex4 ((s ++ p).take 4) = some (p.length + 4) := by
      rw [htk, ← hsdef, hparse]
    have h4 : ¬((p.length + 4 : Nat) < 4) := by omega
    have h0 : ¬((p.length + 4 : Nat) = 0) := by omega
    unfold ParsePktLine
    rw [hdl, if_neg h4, hparse2]
    simp only [h0, if_false, h4, le_refl, if_true, htkall, hdr]

/-- C7 witness: the round-trip at the concrete payload `"want"`. -/
theorem pktline_roundtrip_witness :
    ParsePktLine (MakePktLine [119, 97, 110, 116]) = .ok ("data", [119, 97, 110, 116]) :=
  ((pktline_roundtrip [119, 97, 110, 116] (by decide)).2 (by decide)).2.2

/-- C5 counterexample: the pack object header `0x93 0x01` does not decode to
a Blob of size 19; the type bits of `0x93` are `(0x93 >> 4) & 7 = 1`
(Commit), not 3 (Blob). -/
theorem parseObjectHeader_0x93_not_blob :
    parseObjectHeader [147, 1] ≠ (OBJ_BLOB, 19, 2) := by decide

/-- C5 amended: decoding `0x93 0x01` produces type Commit (tag 1) and size 19
and consumes exactly 2 bytes; the type is bits 4-6 of the first byte and the
low 4 bits combine with 7 bits of the continuation byte shifted by 4. -/
theorem parseObjectHeader_0x93_commit :
    parseObjectHeader [147, 1] = (OBJ_COMMIT, 19, 2) ∧
    (147 >>> 4) &&& 7 = OBJ_COMMIT ∧
    (147 &&& 15) ||| ((1 &&& 127) <<< 4) = 19 := by decide

/-- The size loop consumes at most the remaining bytes. -/
theorem parseSizeLoop_le (rest : List Nat) : ∀ shift size,
    (parseSizeLoop rest shift size).2 ≤ rest.length := by
  induction rest with
  | nil => intro shift size; simp [parseSizeLoop]
  | cons b bs ih =>
    intro shift size
    simp only [parseSizeLoop, List.length_cons]
    split
    · simp
    · have := ih (shift + 7) (size ||| ((b &&& 127) <<< shift))
      omega

/-- When every remaining byte has the continuation bit set, the size loop
consumes all of them. -/
theorem parseSizeLoop_all_cont (rest : List Nat) (hall : ∀ b ∈ rest, b &&& 128 ≠ 0) :
    ∀ shift size, (parseSizeLoop rest shift size).2 = rest.length := by
  induction rest with
  | nil => intro shift size; simp [parseSizeLoop]
  | cons b bs ih =>
    intro shift size
    have hb : b &&& 128 ≠ 0 := hall b (List.mem_cons_self b bs)
    simp only [parseSizeLoop, List.length_cons, hb, if_false]
    have := ih (fun x hx => hall x (List.mem_cons_of_mem b hx))
      (shift + 7) (size ||| ((b &&& 127) <<< shift))
    omega

/-- C10: `parseObjectHeader` never consumes more bytes than are available, it
consumes 0 bytes exactly on the empty buffer, and on a truncated header whose
available bytes all carry the continuation bit it silently consumes the whole
buffer (no error). -/
theorem parseObjectHeader_consumed_bounds (d : List Nat) :
    (parseObjectHeader d).2.2 ≤ d.length ∧
    ((parseObjectHeader d).2.2 = 0 ↔ d = []) ∧
    (d ≠ [] → (∀ b ∈ d, b &&& 128 ≠ 0) → (parseObjectHeader d).2.2 = d.length) := by
  cases d with
  | nil => simp [parseObjectHeader]
  | cons fb rest =>
    by_cases hc : fb &&& 128 = 0
    · refine ⟨?_, ?_, ?_⟩
      · simp [parseObjectHeader, hc]
      · simp [parseObjectHeader, hc]
      · intro _ hall
        exact absurd hc (hall fb (List.mem_cons_self fb rest))
    · have h1 := parseSizeLoop_le rest 4 (fb &&& 15)
      refine ⟨?_, ?_, ?_⟩
      · simp only [parseObjectHeader, hc, if_false, List.length_cons]
        omega
      · simp only [parseObjectHeader, hc, if_false]
        constructor
        · intro h; omega
        · intro h; exact absurd h (by simp)
      · intro _ hall
        have h2 := parseSizeLoop_all_cont rest
          (fun x hx => hall x (List.mem_cons_of_mem fb hx)) 4 (fb &&& 15)
        simp only [parseObjectHeader, hc, if_false, List.length_cons]
        omega

/-- C10 witness: on the all-continuation buffer `[0x80, 0x82]` the header
decoder consumes exactly the 2 available bytes and reports no error. -/
theorem parseObjectHeader_consumed_bounds_witness :
    (parseObjectHeader [128, 130]).2.2 = 2 :=
  (parseObjectHeader_consumed_bounds [128, 130]).2.2 (by decide) (by decide)

/-- C9: `NegotiateWithServer` prefers the `HEAD` entry, then
`refs/heads/main`, then `refs/heads/master`, in exactly that order, and fails
with the no-suitable-reference error when none is present. -/
theorem negotiate_preference (refs : RefMap) (h : List Nat) :
    (lookupRef refs (strBytes "HEAD") = some h → NegotiateWithServer refs = .ok h) ∧
    (lookupRef refs (strBytes "HEAD") = none →
      lookupRef refs (strBytes "refs/heads/main") = some h →
      NegotiateWithServer refs = .ok h) ∧
    (lookupRef refs (strBytes "HEAD") = none →
      lookupRef refs (strBytes "refs/heads/main") = none →
      lookupRef refs (strBytes "refs/heads/master") = some h →
      NegotiateWithServer refs = .ok h) ∧
    (lookupRef refs (strBytes "HEAD") = none →
      lookupRef refs (strBytes "refs/heads/main") = none →
      lookupRef refs (strBytes "refs/heads/master") = none →
      NegotiateWithServer refs = .error ("no suitable reference found")) := by
  unfold NegotiateWithServer
  refine ⟨?_, ?_, ?_, ?_⟩ <;> intros <;> simp_all

/-- C9 witness: a map holding only `HEAD` negotiates to its hash. -/
theorem negotiate_preference_witness :
    NegotiateWithServer [(strBytes "HEAD", [171, 205])] = .ok [171, 205] :=
  (negotiate_preference [(strBytes "HEAD", [171, 205])] [171, 205]).1 rfl

/-- C1 (code behavior at the spec's delta test vector): on the synthetic
packfile with one base Blob inflating to `"abcd"` and one RefDelta entry,
`ParsePackfile` persists only the base blob and succeeds; no object with the
delta-resolved content `"abcdXYZ"` is ever persisted, because the delta
branch skips the entry without applying or storing anything. -/
theorem ParsePackfile_refdelta_not_applied :
    ParsePackfile concreteInflate refDeltaPack = ([(BlobObject, [97, 98, 99, 100])], none) ∧
    [97, 98, 99, 100, 88, 89, 90] ∉
      (ParsePackfile concreteInflate refDeltaPack).1.map Prod.snd := by decide

/-- C2 (split-read divergence): the pkt-line stream `"0009abcde"` delivered in
two reads split inside the frame yields no frames (the carried bytes are
discarded), while the same stream in a single read yields the frame
`"abcde"`. -/
theorem ReadPktLines_split_discards :
    ReadPktLines [[48, 48, 48, 57, 97, 98], [99, 100, 101]] = .ok [] ∧
    ReadPktLines [[48, 48, 48, 57, 97, 98, 99, 100, 101]] =
      .ok [[97, 98, 99, 100, 101]] := by decide

/-- C8 (malformed length header): on the stream `"0001"` (length header
`L = 1`), `ReadPktLines` panics (Go slices `data[4:1]`), while `ParsePktLine`
alone returns an error. -/
theorem ReadPktLines_short_length_panics :
    ReadPktLines [[48, 48, 48, 49]] = .panics ∧
    ParsePktLine [48, 48, 48, 49] = .err ("invalid pkt-line length") := by decide

/-- C3 (channel-3 not fatal): on a stream holding channel-1 `"AB"`, then
channel-3 `"ERR"` (the byte at offset 11 is the channel tag 3), then
channel-1 `"CD"`, `unwrapSideBand` returns `"ABCD"` with no error: the
channel-3 frame is silently skipped and later frames are still consumed. -/
theorem unwrapSideBand_ignores_channel3 :
    unwrapSideBand sideBandErrData = .ok [65, 66, 67, 68] ∧
    sideBandErrData.getD 11 0 = 3 := ⟨rfl, rfl⟩

/-- C4 counterexample: the single-entry packfile whose Blob header declares
inflated size 5 while the stream inflates to the 4 bytes `"abcd"` parses
without any error and persists the 4-byte content: the declared size is never
compared with the decompressed length. -/
theorem ParsePackfile_size_mismatch_accepted :
    parseObjectHeader (mismatchPack.drop 12) = (OBJ_BLOB, 5, 1) ∧
    ParsePackfile concreteInflate mismatchPack =
      ([(BlobObject, [97, 98, 99, 100])], none) ∧
    ([97, 98, 99, 100] : List Nat).length ≠ 5 := by decide

/-- C4 amended: for every declared inflated size `d < 16`, parsing the
single-Blob packfile whose stream inflates to the 4 bytes `"abcd"` succeeds
and persists that content; the declared size is ignored, so no size-mismatch
error is possible. -/
theorem ParsePackfile_ignores_declared_size :
    ∀ d, d < 16 → ParsePackfile concreteInflate (blobPackWithSize d) =
      ([(BlobObject, [97, 98, 99, 100])], none) := by decide

/-- C4 witness: declared size 9 against actual content length 4 still
succeeds. -/
theorem ParsePackfile_ignores_declared_size_witness :
    ParsePackfile concreteInflate (blobPackWithSize 9) =
      ([(BlobObject, [97, 98, 99, 100])], none) :=
  ParsePackfile_ignores_declared_size 9 (by decide)

/-- `splitAtFirst` recovers the parts around the first separator. -/
theorem splitAtFirst_append (sha rest : List Nat) (h : 32 ∉ sha) :
    splitAtFirst 32 (sha ++ 32 :: rest) = some (sha, rest) := by
  induction sha with
  | nil => simp [splitAtFirst]
  | cons b bs ih =>
    have hb : ¬(b = 32) := by
      intro e
      exact h (e ▸ List.mem_cons_self b bs)
    have hbs : 32 ∉ bs := fun hm => h (List.mem_cons_of_mem b hm)
    simp only [List.cons_append, splitAtFirst, hb, if_false, List.append_eq, ih hbs]

/-- C6 counterexample: on the advertised line `"aa HEAD\0ma"` (hash `"aa"`,
ref `HEAD`, NUL-separated capability `"ma"`), the reference loop stores the
hash under the key `"HEAD\0ma"` — the capability suffix is not stripped — and
a lookup of the bare name `"HEAD"` finds nothing. -/
theorem parseReferenceLines_keeps_capability_suffix :
    parseReferenceLines [[97, 97, 32, 72, 69, 65, 68, 0, 109, 97]] =
      [([72, 69, 65, 68, 0, 109, 97], [97, 97])] ∧
    lookupRef (parseReferenceLines [[97, 97, 32, 72, 69, 65, 68, 0, 109, 97]])
      [72, 69, 65, 68] = none := by decide

/-- C6 amended: for every line `<sha> <rest>` whose hash part has no space
and does not start with `#`, the reference loop stores the hash under the
whitespace-trimmed text after the first space, taken verbatim — any
NUL-separated capability suffix remains part of the stored key. -/
theorem parseReferenceLines_stores_after_space (sha rest : List Nat)
    (h32 : 32 ∉ sha) (hhash : (sha ++ 32 :: rest).head? ≠ some 35) :
    parseReferenceLines [sha ++ 32 :: rest] = [(trimSpace rest, sha)] := by
  have hne : ¬(sha ++ 32 :: rest = []) := by simp
  unfold parseReferenceLines parseReferenceLinesGo
  rw [if_neg (by push_neg; exact ⟨hne, hhash⟩)]
  rw [splitAtFirst_append sha rest h32]
  rfl

/-- C6 witness: the amended statement at the line `"bb HEAD\0mb"`, whose
stored key keeps the NUL and capability bytes. -/
theorem parseReferenceLines_stores_after_space_witness :
    parseReferenceLines [[98, 98, 32, 72, 69, 65, 68, 0, 109, 98]] =
      [([72, 69, 65, 68, 0, 109, 98], [98, 98])] :=
  parseReferenceLines_stores_after_space [98, 98] [72, 69, 65, 68, 0, 109, 98]
    (by decide) (by decide)

